import Mathlib

/-!
Verification development for the DRAM-controller core of the Ramulator2_ECC
repository.  The definitions below are shallow embeddings of the C++ source:

* `Request`, `ReqBuffer`            — src/base/request.h
* `TimingConsEntry`, `update_timing_at_node`
                                    — DRAMNodeBase::update_timing (target and
                                      sibling paths, per visited node)
* `DTree` and its query functions   — DRAMNodeBase::get_preq_command,
                                      check_rowbuffer_hit, check_node_open
* `FRFCFS.*`, `PRACScheduler.*`     — the two scheduler implementations
* `CtrlState`, `send`, `tick`, ...  — GenericDRAMController

Machine integers (`Clk_t = int64`, `int`) are modelled as `Int`; the simulator
never exercises wrap-around, and no claim concerns overflow.  `size_t`
counters are modelled as `Nat`.  C++ callbacks (per-level action/preq/rowhit
tables, scheduler oracles, the DRAM device contract) are modelled as explicit
function parameters or per-node result fields, since the controller code uses
them as opaque queries.  The float watermarks are modelled as rationals.
-/

namespace Ram

/-- A memory request, from `struct Request` in src/base/request.h.
The completion callback is modelled by the flag `has_callback` (the
controller only tests its presence and invokes it); the opaque payload
pointer is dropped.  `scratchpad` is the 4-slot `std::array<int, 4>`. -/
structure Request where
  addr : Int := -1
  addr_vec : List Int := []
  type_id : Int := -1
  source_id : Int := -1
  command : Int := -1
  final_command : Int := -1
  is_stat_updated : Bool := false
  arrive : Int := -1
  depart : Int := -1
  scratchpad : List Int := [0, 0, 0, 0]
  has_callback : Bool := false
deriving DecidableEq, Repr, Inhabited

/-- `struct ReqBuffer` from src/base/request.h: an ordered list of requests
with a declared maximum size. -/
structure ReqBuffer where
  buffer : List Request := []
  max_size : Nat := 32
deriving DecidableEq, Repr, Inhabited

/-- `ReqBuffer::enqueue`: the C++ code pushes whenever
`buffer.size() <= max_size` and only then reports success.  (Note the `<=`:
this is what the source does, see the C2 analysis below.) -/
def ReqBuffer.enqueue (b : ReqBuffer) (r : Request) : ReqBuffer × Bool :=
  if b.buffer.length ≤ b.max_size then
    ({ b with buffer := b.buffer ++ [r] }, true)
  else
    (b, false)

/-- `ReqBuffer::remove` by position (the C++ code erases via an iterator). -/
def ReqBuffer.removeAt (b : ReqBuffer) (i : Nat) : ReqBuffer :=
  { b with buffer := b.buffer.take i ++ b.buffer.drop (i + 1) }

/-- `ReqBuffer::size`. -/
def ReqBuffer.size (b : ReqBuffer) : Nat := b.buffer.length

/-!
## Timing engine: `DRAMNodeBase::update_timing`, per visited node

A node's per-command timing data consists of `m_cmd_ready_clk` (one clock per
command; `-1` initially) and `m_cmd_history` (a per-command deque of past
issue clocks, front = most recent, `-1` = "never" sentinel).  Commands are
indexed by `Nat`; the ready array is modelled as a total function, the
history as a function to lists.  A timing constraint
(`TimingConsEntry` in dram/spec.h, used field-by-field in update_timing)
carries the constrained command `cmd`, the value `val`, the history window
`window` and the `sibling` flag.
-/

/-- One timing constraint edge, as consumed by `update_timing`. -/
structure TimingConsEntry where
  cmd : Nat
  val : Int
  window : Nat := 1
  sibling : Bool := false
deriving DecidableEq, Repr

/-- Per-node timing state: `m_cmd_ready_clk` and `m_cmd_history`. -/
structure NodeTimingState where
  cmd_ready_clk : Nat → Int
  cmd_history : Nat → List Int

/-- The history update in the target path of `update_timing`: if the deque is
non-empty, pop the oldest entry (back) and push `clk` at the front. -/
def pushHistory (h : List Int) (clk : Int) : List Int :=
  if h.length = 0 then h else clk :: h.dropLast

/-- Sibling-path step of `update_timing` for one timing edge: sibling-flagged
edges raise `m_cmd_ready_clk[t.cmd]` to `max old (clk + t.val)`. -/
def applySiblingEdge (clk : Int) (r : Nat → Int) (t : TimingConsEntry) : Nat → Int :=
  if t.sibling then
    fun c => if c = t.cmd then max (r c) (clk + t.val) else r c
  else r

/-- Target-path step of `update_timing` for one timing edge: non-sibling
edges read the `window`-th most recent issue from the (already updated)
history `hist`; a sentinel (negative) entry is skipped, otherwise
`m_cmd_ready_clk[t.cmd]` is raised to `max old (past + t.val)`.
Out-of-range reads (impossible in the source, where the deque length is the
maximum declared window) yield the sentinel. -/
def applyTargetEdge (hist : List Int) (r : Nat → Int) (t : TimingConsEntry) : Nat → Int :=
  if t.sibling then r
  else
    let past := hist.getD (t.window - 1) (-1)
    if past < 0 then r
    else fun c => if c = t.cmd then max (r c) (past + t.val) else r c

/-- Per-node body of `DRAMNodeBase::update_timing` for a node with id
`node_id` at a level addressed by `addr_at_level`, given the node-level
timing constraints `edges` for the issued `command`.  The sibling path
applies when the node is not the addressed sibling; the target path records
`clk` in the history for `command` and applies every non-sibling edge. -/
def update_timing_at_node (edges : List TimingConsEntry) (node_id addr_at_level : Int)
    (command : Nat) (clk : Int) (s : NodeTimingState) : NodeTimingState :=
  if node_id ≠ addr_at_level ∧ addr_at_level ≠ -1 then
    { s with cmd_ready_clk := edges.foldl (applySiblingEdge clk) s.cmd_ready_clk }
  else
    let h := pushHistory (s.cmd_history command) clk
    { cmd_history := fun c => if c = command then h else s.cmd_history c,
      cmd_ready_clk := edges.foldl (applyTargetEdge h) s.cmd_ready_clk }

/-! Helper lemmas about the edge folds of `update_timing_at_node`. -/

theorem applySiblingEdge_mono (clk : Int) (r : Nat → Int) (t : TimingConsEntry) (c : Nat) :
    r c ≤ applySiblingEdge clk r t c := by
  unfold applySiblingEdge
  split
  · dsimp only
    split
    · exact le_max_left _ _
    · exact le_rfl
  · exact le_rfl

theorem applyTargetEdge_mono (hist : List Int) (r : Nat → Int) (t : TimingConsEntry) (c : Nat) :
    r c ≤ applyTargetEdge hist r t c := by
  unfold applyTargetEdge
  split
  · exact le_rfl
  · dsimp only
    split
    · exact le_rfl
    · dsimp only
      split
      · exact le_max_left _ _
      · exact le_rfl

theorem foldl_edges_mono (step : (Nat → Int) → TimingConsEntry → Nat → Int)
    (hstep : ∀ r t c, r c ≤ step r t c) :
    ∀ (l : List TimingConsEntry) (r : Nat → Int) (c : Nat), r c ≤ (l.foldl step r) c := by
  intro l
  induction l with
  | nil => intro r c; exact le_rfl
  | cons t ts ih =>
    intro r c
    exact le_trans (hstep r t c) (ih (step r t) c)

theorem foldl_targetEdges_bound (hist : List Int) (l : List TimingConsEntry)
    (t : TimingConsEntry) (ht : t ∈ l) (hsib : t.sibling = false)
    (hpast : 0 ≤ hist.getD (t.window - 1) (-1)) :
    ∀ r : Nat → Int,
      hist.getD (t.window - 1) (-1) + t.val ≤ (l.foldl (applyTargetEdge hist) r) t.cmd := by
  induction l with
  | nil => cases ht
  | cons u us ih =>
    intro r
    rcases List.mem_cons.mp ht with hEq | hmem
    · subst hEq
      have hstep : hist.getD (t.window - 1) (-1) + t.val ≤ applyTargetEdge hist r t t.cmd := by
        unfold applyTargetEdge
        rw [hsib]
        simp only [Bool.false_eq_true, if_false]
        rw [if_neg (not_lt.mpr hpast)]
        simp
      exact le_trans hstep
        (foldl_edges_mono _ (applyTargetEdge_mono hist) us (applyTargetEdge hist r t) t.cmd)
    · exact ih hmem (applyTargetEdge hist r u)

theorem foldl_targetEdges_id (hist : List Int) (l : List TimingConsEntry)
    (hall : ∀ t ∈ l, t.sibling = false → hist.getD (t.window - 1) (-1) < 0) :
    ∀ r : Nat → Int, l.foldl (applyTargetEdge hist) r = r := by
  induction l with
  | nil => intro r; rfl
  | cons u us ih =>
    intro r
    have hstep : applyTargetEdge hist r u = r := by
      unfold applyTargetEdge
      split
      · rfl
      · dsimp only
        rename_i hns
        rw [if_pos (hall u (List.mem_cons_self u us) (Bool.not_eq_true _ ▸ by
          revert hns; cases u.sibling <;> simp))]
    rw [List.foldl_cons, hstep]
    exact ih (fun t htm => hall t (List.mem_cons_of_mem u htm)) r

/-- Claim C1: on the target path of `update_timing`, after the update,
(a) for every non-sibling timing edge whose `window`-th most recent recorded
issue of the command (read from the just-updated history) is defined (not
the `-1` "never" sentinel), the node's earliest-ready clock of the edge's
target command is at least that past timestamp plus the edge value;
(b) if every non-sibling edge reads a sentinel entry, no constraint is
produced (the ready clocks are untouched); and
(c) ready clocks are only ever raised, never lowered. -/
theorem update_timing_target_path_bounds (edges : List TimingConsEntry)
    (node_id addr_at_level : Int) (command : Nat) (clk : Int) (s : NodeTimingState)
    (htgt : node_id = addr_at_level ∨ addr_at_level = -1) :
    (∀ t ∈ edges, t.sibling = false →
      0 ≤ ((update_timing_at_node edges node_id addr_at_level command clk s).cmd_history
            command).getD (t.window - 1) (-1) →
      ((update_timing_at_node edges node_id addr_at_level command clk s).cmd_history
            command).getD (t.window - 1) (-1) + t.val ≤
        (update_timing_at_node edges node_id addr_at_level command clk s).cmd_ready_clk t.cmd) ∧
    ((∀ t ∈ edges, t.sibling = false →
      ((update_timing_at_node edges node_id addr_at_level command clk s).cmd_history
            command).getD (t.window - 1) (-1) < 0) →
      (update_timing_at_node edges node_id addr_at_level command clk s).cmd_ready_clk =
        s.cmd_ready_clk) ∧
    (∀ c, s.cmd_ready_clk c ≤
      (update_timing_at_node edges node_id addr_at_level command clk s).cmd_ready_clk c) := by
  have hcond : ¬(node_id ≠ addr_at_level ∧ addr_at_level ≠ -1) := by
    rcases htgt with h | h
    · intro hc; exact hc.1 h
    · intro hc; exact hc.2 h
  unfold update_timing_at_node
  rw [if_neg hcond]
  simp only
  refine ⟨?_, ?_, ?_⟩
  · intro t htm hsib hpast
    simp only [if_true] at hpast ⊢
    exact foldl_targetEdges_bound _ edges t htm hsib hpast s.cmd_ready_clk
  · intro hall
    refine foldl_targetEdges_id _ edges ?_ s.cmd_ready_clk
    intro t htm hsib
    have hthis := hall t htm hsib
    simpa only [if_true] using hthis
  · intro c
    exact foldl_edges_mono _ (applyTargetEdge_mono _) edges s.cmd_ready_clk c

/-- Witness for C1: a concrete node with a two-edge constraint list issued a
command, checking the produced bound through the theorem. -/
theorem update_timing_target_path_bounds_witness :
    (7 : Int) + 5 ≤
      (update_timing_at_node [⟨1, 5, 1, false⟩] 0 0 0 7
        ⟨fun _ => -1, fun _ => [-1]⟩).cmd_ready_clk 1 := by
  have h := update_timing_target_path_bounds [⟨1, 5, 1, false⟩] 0 0 0 7
    ⟨fun _ => -1, fun _ => [-1]⟩ (Or.inl rfl)
  have hb := h.1 ⟨1, 5, 1, false⟩ (List.mem_singleton.mpr rfl) rfl (by
    unfold update_timing_at_node pushHistory
    norm_num)
  have hv : ((update_timing_at_node [⟨1, 5, 1, false⟩] 0 0 0 7
      ⟨fun _ => -1, fun _ => [-1]⟩).cmd_history 0).getD 0 (-1) = 7 := by
    unfold update_timing_at_node pushHistory
    norm_num
  rw [show (⟨1, 5, 1, false⟩ : TimingConsEntry).window - 1 = 0 from rfl] at hb
  rw [hv] at hb
  exact hb

/-!
## Device-tree queries: `get_preq_command`, `check_rowbuffer_hit`, `check_node_open`

The query descents of `DRAMNodeBase` consult the per-(level, command)
callback tables (`m_preqs`, `m_rowhits`, `m_rowopens`) and otherwise index
the child array directly with `addr_vec[level + 1]` — with no broadcast
(`-1`) or bounds handling, unlike `update_states` / `check_ready`.  For a
fixed query `(command, addr_vec, clk)` each node's callback produces one
result; those results are embedded per node: `preqAns = none` models an
absent `m_preqs[level][cmd]` entry, `some p` a callback returning `p`
(where `p = -1` means "no prerequisite here, keep descending");
`rowhitAns` / `rowopenAns` model `m_rowhits` / `m_rowopens` likewise.
Out-of-range or `-1` child indices — undefined behaviour in the C++ — are
modelled by an explicit `none` error branch. -/
inductive DTree where
  | mk (preqAns : Option Int) (rowhitAns : Option Bool) (rowopenAns : Option Bool)
       (children : List DTree)

/-- `DRAMNodeBase::get_preq_command`: if the level's preq callback yields a
prerequisite (≠ -1) stop with it; a leaf returns the requested command;
otherwise descend into `children[addr_vec[level + 1]]`.  The `none` result
marks the unguarded child indexing going out of range. -/
def DTree.get_preq_command (command : Int) (addr_vec : List Int) :
    DTree → Nat → Option Int
  | .mk preqAns _ _ children, level =>
    match preqAns with
    | some p =>
      if p = -1 then
        if children.length = 0 then some command
        else
          if h : 0 ≤ addr_vec.getD (level + 1) (-1) ∧
                 (addr_vec.getD (level + 1) (-1)).toNat < children.length then
            DTree.get_preq_command command addr_vec
              (children.get ⟨(addr_vec.getD (level + 1) (-1)).toNat, h.2⟩) (level + 1)
          else none
      else some p
    | none =>
      if children.length = 0 then some command
      else
        if h : 0 ≤ addr_vec.getD (level + 1) (-1) ∧
               (addr_vec.getD (level + 1) (-1)).toNat < children.length then
          DTree.get_preq_command command addr_vec
            (children.get ⟨(addr_vec.getD (level + 1) (-1)).toNat, h.2⟩) (level + 1)
        else none
termination_by t _ => sizeOf t
decreasing_by
  all_goals
    simp_wf
    have h1 := List.sizeOf_lt_of_mem
      (List.get_mem children (addr_vec.getD (level + 1) (-1)).toNat h.2)
    simp at h1
    omega

/-- `DRAMNodeBase::check_rowbuffer_hit`: the first defined rowhit callback
settles the answer; a leaf returns false; otherwise descend through the
unguarded child indexing. -/
def DTree.check_rowbuffer_hit (addr_vec : List Int) : DTree → Nat → Option Bool
  | .mk _ rowhitAns _ children, level =>
    match rowhitAns with
    | some b => some b
    | none =>
      if children.length = 0 then some false
      else
        if h : 0 ≤ addr_vec.getD (level + 1) (-1) ∧
               (addr_vec.getD (level + 1) (-1)).toNat < children.length then
          DTree.check_rowbuffer_hit addr_vec
            (children.get ⟨(addr_vec.getD (level + 1) (-1)).toNat, h.2⟩) (level + 1)
        else none
termination_by t _ => sizeOf t
decreasing_by
  simp_wf
  have h1 := List.sizeOf_lt_of_mem
    (List.get_mem children (addr_vec.getD (level + 1) (-1)).toNat h.2)
  simp at h1
  omega

/-- `DRAMNodeBase::check_node_open`: identical descent with the rowopen
callback table. -/
def DTree.check_node_open (addr_vec : List Int) : DTree → Nat → Option Bool
  | .mk _ _ rowopenAns children, level =>
    match rowopenAns with
    | some b => some b
    | none =>
      if children.length = 0 then some false
      else
        if h : 0 ≤ addr_vec.getD (level + 1) (-1) ∧
               (addr_vec.getD (level + 1) (-1)).toNat < children.length then
          DTree.check_node_open addr_vec
            (children.get ⟨(addr_vec.getD (level + 1) (-1)).toNat, h.2⟩) (level + 1)
        else none
termination_by t _ => sizeOf t
decreasing_by
  simp_wf
  have h1 := List.sizeOf_lt_of_mem
    (List.get_mem children (addr_vec.getD (level + 1) (-1)).toNat h.2)
  simp at h1
  omega

/-- The precondition of the `get_preq_command` descent: at every visited node
with children where the preq callback does not settle the result,
`addr_vec[level + 1]` is a valid child index. -/
def DTree.preqValid (addr_vec : List Int) : DTree → Nat → Bool
  | .mk preqAns _ _ children, level =>
    if (match preqAns with | some p => p != -1 | none => false) then true
    else if children.length = 0 then true
    else
      if h : 0 ≤ addr_vec.getD (level + 1) (-1) ∧
             (addr_vec.getD (level + 1) (-1)).toNat < children.length then
        DTree.preqValid addr_vec
          (children.get ⟨(addr_vec.getD (level + 1) (-1)).toNat, h.2⟩) (level + 1)
      else false
termination_by t _ => sizeOf t
decreasing_by
  simp_wf
  have h1 := List.sizeOf_lt_of_mem
    (List.get_mem children (addr_vec.getD (level + 1) (-1)).toNat h.2)
  simp at h1
  omega

/-- The analogous precondition of the `check_rowbuffer_hit` descent. -/
def DTree.rowhitValid (addr_vec : List Int) : DTree → Nat → Bool
  | .mk _ rowhitAns _ children, level =>
    if rowhitAns.isSome then true
    else if children.length = 0 then true
    else
      if h : 0 ≤ addr_vec.getD (level + 1) (-1) ∧
             (addr_vec.getD (level + 1) (-1)).toNat < children.length then
        DTree.rowhitValid addr_vec
          (children.get ⟨(addr_vec.getD (level + 1) (-1)).toNat, h.2⟩) (level + 1)
      else false
termination_by t _ => sizeOf t
decreasing_by
  simp_wf
  have h1 := List.sizeOf_lt_of_mem
    (List.get_mem children (addr_vec.getD (level + 1) (-1)).toNat h.2)
  simp at h1
  omega

/-- The analogous precondition of the `check_node_open` descent. -/
def DTree.rowopenValid (addr_vec : List Int) : DTree → Nat → Bool
  | .mk _ _ rowopenAns children, level =>
    if rowopenAns.isSome then true
    else if children.length = 0 then true
    else
      if h : 0 ≤ addr_vec.getD (level + 1) (-1) ∧
             (addr_vec.getD (level + 1) (-1)).toNat < children.length then
        DTree.rowopenValid addr_vec
          (children.get ⟨(addr_vec.getD (level + 1) (-1)).toNat, h.2⟩) (level + 1)
      else false
termination_by t _ => sizeOf t
decreasing_by
  simp_wf
  have h1 := List.sizeOf_lt_of_mem
    (List.get_mem children (addr_vec.getD (level + 1) (-1)).toNat h.2)
  simp at h1
  omega

theorem preqValid_isSome (command : Int) (addr_vec : List Int) :
    ∀ (t : DTree) (level : Nat), t.preqValid addr_vec level = true →
      (t.get_preq_command command addr_vec level).isSome := by
  intro t level h
  induction t, level using DTree.preqValid.induct addr_vec with
  | case1 preqAns rowhitAns rowopenAns children level hset =>
    unfold DTree.get_preq_command
    match preqAns, hset with
    | some p, hset =>
      have hp : ¬(p = -1) := by simpa using hset
      dsimp only
      rw [if_neg hp]
      rfl
  | case2 preqAns rowhitAns rowopenAns children level hset hlen =>
    unfold DTree.get_preq_command
    match preqAns, hset with
    | some p, hset =>
      have hp : p = -1 := by simpa using hset
      dsimp only
      rw [if_pos hp, if_pos hlen]
      rfl
    | none, _ =>
      dsimp only
      rw [if_pos hlen]
      rfl
  | case3 preqAns rowhitAns rowopenAns children level hset hlen hb ih =>
    unfold DTree.preqValid at h
    rw [if_neg (by simp [hset]), if_neg hlen, dif_pos hb] at h
    have hrec := ih h
    unfold DTree.get_preq_command
    match preqAns, hset with
    | some p, hset =>
      have hp : p = -1 := by simpa using hset
      dsimp only
      rw [if_pos hp, if_neg hlen, dif_pos hb]
      exact hrec
    | none, _ =>
      dsimp only
      rw [if_neg hlen, dif_pos hb]
      exact hrec
  | case4 preqAns rowhitAns rowopenAns children level hset hlen hb =>
    unfold DTree.preqValid at h
    rw [if_neg (by simp [hset]), if_neg hlen, dif_neg hb] at h
    cases h

theorem rowhitValid_isSome (addr_vec : List Int) :
    ∀ (t : DTree) (level : Nat), t.rowhitValid addr_vec level = true →
      (t.check_rowbuffer_hit addr_vec level).isSome := by
  intro t level h
  induction t, level using DTree.rowhitValid.induct addr_vec with
  | case1 preqAns rowhitAns rowopenAns children level hset =>
    unfold DTree.check_rowbuffer_hit
    match rowhitAns, hset with
    | some b, _ => rfl
  | case2 preqAns rowhitAns rowopenAns children level hset hlen =>
    unfold DTree.check_rowbuffer_hit
    match rowhitAns, hset with
    | some b, hset => simp at hset
    | none, _ =>
      dsimp only
      rw [if_pos hlen]
      rfl
  | case3 preqAns rowhitAns rowopenAns children level hset hlen hb ih =>
    unfold DTree.rowhitValid at h
    rw [if_neg hset, if_neg hlen, dif_pos hb] at h
    have hrec := ih h
    unfold DTree.check_rowbuffer_hit
    match rowhitAns, hset with
    | some b, hset => simp at hset
    | none, _ =>
      dsimp only
      rw [if_neg hlen, dif_pos hb]
      exact hrec
  | case4 preqAns rowhitAns rowopenAns children level hset hlen hb =>
    unfold DTree.rowhitValid at h
    rw [if_neg hset, if_neg hlen, dif_neg hb] at h
    cases h

theorem rowopenValid_isSome (addr_vec : List Int) :
    ∀ (t : DTree) (level : Nat), t.rowopenValid addr_vec level = true →
      (t.check_node_open addr_vec level).isSome := by
  intro t level h
  induction t, level using DTree.rowopenValid.induct addr_vec with
  | case1 preqAns rowhitAns rowopenAns children level hset =>
    unfold DTree.check_node_open
    match rowopenAns, hset with
    | some b, _ => rfl
  | case2 preqAns rowhitAns rowopenAns children level hset hlen =>
    unfold DTree.check_node_open
    match rowopenAns, hset with
    | some b, hset => simp at hset
    | none, _ =>
      dsimp only
      rw [if_pos hlen]
      rfl
  | case3 preqAns rowhitAns rowopenAns children level hset hlen hb ih =>
    unfold DTree.rowopenValid at h
    rw [if_neg hset, if_neg hlen, dif_pos hb] at h
    have hrec := ih h
    unfold DTree.check_node_open
    match rowopenAns, hset with
    | some b, hset => simp at hset
    | none, _ =>
      dsimp only
      rw [if_neg hlen, dif_pos hb]
      exact hrec
  | case4 preqAns rowhitAns rowopenAns children level hset hlen hb =>
    unfold DTree.rowopenValid at h
    rw [if_neg hset, if_neg hlen, dif_neg hb] at h
    cases h

/-- Claim C9: the query descents `get_preq_command`, `check_rowbuffer_hit`
and `check_node_open` index the child array directly with
`addr_vec[level + 1]` and have no broadcast or bounds handling; under the
precondition that at every visited node with children where no per-level
callback settles the result the child index is valid, the embedding's
indexing-error branch (`none`) is unreachable — each query is defined.
Moreover an address vector carrying `-1` at such a deciding level violates
the precondition. -/
theorem dtree_query_descents_safe (t : DTree) (command : Int) (addr_vec : List Int)
    (level : Nat) :
    (t.preqValid addr_vec level = true →
      (t.get_preq_command command addr_vec level).isSome) ∧
    (t.rowhitValid addr_vec level = true →
      (t.check_rowbuffer_hit addr_vec level).isSome) ∧
    (t.rowopenValid addr_vec level = true →
      (t.check_node_open addr_vec level).isSome) ∧
    (∀ preqAns rowhitAns rowopenAns children,
      t = DTree.mk preqAns rowhitAns rowopenAns children →
      (preqAns = none ∨ preqAns = some (-1)) → children.length ≠ 0 →
      addr_vec.getD (level + 1) (-1) = -1 →
      t.preqValid addr_vec level = false) := by
  refine ⟨preqValid_isSome command addr_vec t level,
          rowhitValid_isSome addr_vec t level,
          rowopenValid_isSome addr_vec t level, ?_⟩
  intro preqAns rowhitAns rowopenAns children hteq hunsettled hlen hneg
  subst hteq
  have hnb : ¬(0 ≤ addr_vec.getD (level + 1) (-1) ∧
      (addr_vec.getD (level + 1) (-1)).toNat < children.length) := by
    rw [hneg]
    intro hc
    omega
  rcases hunsettled with hone | hone
  · subst hone
    unfold DTree.preqValid
    rw [if_neg (by simp), if_neg hlen, dif_neg hnb]
  · subst hone
    unfold DTree.preqValid
    rw [if_neg (by simp), if_neg hlen, dif_neg hnb]

/-- Witness for C9 on a concrete two-level tree and address vector. -/
theorem dtree_query_descents_safe_witness :
    ((DTree.mk none none (some true) [DTree.mk (some 3) (some false) none
        []]).get_preq_command 7 [0, 0] 0).isSome ∧
    ((DTree.mk none none (some true) [DTree.mk (some 3) (some false) none
        []]).check_rowbuffer_hit [0, 0] 0).isSome ∧
    ((DTree.mk none none (some true) [DTree.mk (some 3) (some false) none
        []]).check_node_open [0, 0] 0).isSome := by
  have h := dtree_query_descents_safe
    (DTree.mk none none (some true) [DTree.mk (some 3) (some false) none []]) 7 [0, 0] 0
  exact ⟨h.1 (by simp [DTree.preqValid]),
         h.2.1 (by simp [DTree.rowhitValid]),
         h.2.2.1 (by simp [DTree.rowopenValid])⟩

/-!
## Schedulers and controller

The controller and schedulers use the DRAM device only through the
five-function device contract of `IDRAM` plus the request-translation and
command-meta tables; all of these are non-mutating queries of device state,
so they are modelled as a bundle of pure functions fixed for the duration
of a call. -/
structure DeviceView where
  check_ready : Int → List Int → Bool
  get_preq_command : Int → List Int → Int
  check_rowbuffer_hit : Int → List Int → Bool
  check_node_open : Int → List Int → Bool
  is_opening : Int → Bool
  is_closing : Int → Bool
  request_translations : Int → Int
  read_latency : Int

/-- `FRFCFS::compare` over buffer positions `i`, `j` (the C++ compares via
iterators): readiness (xor) dominates, then earliest arrival, ties keeping
the first. -/
def FRFCFS.compareIdx (dev : DeviceView) (buf : List Request) (i j : Nat) : Nat :=
  let r1 := buf.getD i default
  let r2 := buf.getD j default
  let ready1 := dev.check_ready r1.command r1.addr_vec
  let ready2 := dev.check_ready r2.command r2.addr_vec
  if ready1 ≠ ready2 then
    if ready1 then i else j
  else
    if r1.arrive ≤ r2.arrive then i else j

/-- `FRFCFS::get_best_request`: empty buffer yields the end iterator
(`none`); otherwise every request's `command` is recomputed via
`get_preq_command` and the compare fold starting from the first element
selects the winner (returned as a position). -/
def FRFCFS.get_best_request (dev : DeviceView) (b : ReqBuffer) : ReqBuffer × Option Nat :=
  if b.buffer.length = 0 then (b, none)
  else
    let buf := b.buffer.map (fun r =>
      { r with command := dev.get_preq_command r.final_command r.addr_vec })
    let cand := ((List.range buf.length).drop 1).foldl (FRFCFS.compareIdx dev buf) 0
    ({ b with buffer := buf }, some cand)

/-- `PRACScheduler::compare`: the FITS scratchpad slot dominates, then the
READY slot, then earliest arrival.  The C++ reads the int slots as bools
(non-zero = true). -/
def PRACScheduler.compareIdx (buf : List Request) (i j : Nat) : Nat :=
  let r1 := buf.getD i default
  let r2 := buf.getD j default
  let fits1 := r1.scratchpad.getD 0 0 ≠ 0
  let fits2 := r2.scratchpad.getD 0 0 ≠ 0
  if fits1 ≠ fits2 then
    if fits1 then i else j
  else
    let ready1 := r1.scratchpad.getD 1 0 ≠ 0
    let ready2 := r2.scratchpad.getD 1 0 ≠ 0
    if ready1 ≠ ready2 then
      if ready1 then i else j
    else
      if r1.arrive ≤ r2.arrive then i else j

/-- `PRACScheduler::get_best_request`: empty buffer yields the end iterator;
otherwise each request's command, FITS slot (computed from the PRAC
plugin's `next_recovery_cycle` and `min_cycles_with_preall` oracles) and
READY slot are rewritten, then the compare fold selects the winner. -/
def PRACScheduler.get_best_request (dev : DeviceView) (next_recovery : Int)
    (min_cycles_with_preall : Request → Int) (clk : Int) (b : ReqBuffer) :
    ReqBuffer × Option Nat :=
  if b.buffer.length = 0 then (b, none)
  else
    let buf := b.buffer.map (fun r =>
      let r1 := { r with command := dev.get_preq_command r.final_command r.addr_vec }
      let fits := if clk + min_cycles_with_preall r1 < next_recovery then (1 : Int) else 0
      let r2 := { r1 with scratchpad := r1.scratchpad.set 0 fits }
      let rdy := if dev.check_ready r2.command r2.addr_vec then (1 : Int) else 0
      { r2 with scratchpad := r2.scratchpad.set 1 rdy })
    let cand := ((List.range buf.length).drop 1).foldl (PRACScheduler.compareIdx buf) 0
    ({ b with buffer := buf }, some cand)

/-- Claim C8: `FRFCFS::get_best_request` only rewrites the `command` field of
every buffered request (recomputing it via the device's
`get_preq_command`); the buffer length and capacity, and every other field
of every request, are unchanged.  The comparator and the selection fold
perform reads only.  The DRAM device itself appears solely as the read-only
view `dev`, reflecting that the scheduler calls only non-mutating device
queries. -/
theorem FRFCFS_get_best_request_frame (dev : DeviceView) (b : ReqBuffer) :
    ((FRFCFS.get_best_request dev b).1.max_size = b.max_size) ∧
    ((FRFCFS.get_best_request dev b).1.buffer.length = b.buffer.length) ∧
    (∀ i, i < b.buffer.length →
      (FRFCFS.get_best_request dev b).1.buffer.getD i default =
        { b.buffer.getD i default with
          command := dev.get_preq_command (b.buffer.getD i default).final_command
                       (b.buffer.getD i default).addr_vec }) := by
  unfold FRFCFS.get_best_request
  by_cases h0 : b.buffer.length = 0
  · rw [if_pos h0]
    refine ⟨rfl, rfl, ?_⟩
    intro i hi
    exact absurd hi (by omega)
  · rw [if_neg h0]
    refine ⟨rfl, by simp, ?_⟩
    intro i hi
    have hi' : i < (b.buffer.map (fun r =>
        { r with command := dev.get_preq_command r.final_command r.addr_vec })).length := by
      simpa using hi
    rw [List.getD_eq_getElem _ _ hi', List.getD_eq_getElem _ _ hi, List.getElem_map]

/-- Witness for C8: a concrete device view and two-request buffer; the head
request keeps every field but gets the recomputed command. -/
theorem FRFCFS_get_best_request_frame_witness :
    (FRFCFS.get_best_request
        ⟨fun _ _ => true, fun c _ => c + 10, fun _ _ => false, fun _ _ => false,
         fun _ => false, fun _ => false, fun t => t, 10⟩
        ⟨[{ addr := 4, final_command := 1 }, { addr := 5, final_command := 2 }], 32⟩).1.buffer.getD
        0 default =
      { ({ addr := 4, final_command := 1 } : Request) with command := 11 } := by
  have h := FRFCFS_get_best_request_frame
    ⟨fun _ _ => true, fun c _ => c + 10, fun _ _ => false, fun _ _ => false,
     fun _ => false, fun _ => false, fun t => t, 10⟩
    ⟨[{ addr := 4, final_command := 1 }, { addr := 5, final_command := 2 }], 32⟩
  have h0 := h.2.2 0 (by norm_num)
  simpa using h0

/-- Claim C10: on an empty buffer both scheduler implementations return the
end iterator (modelled as `none`) and leave the buffer — hence every
request and the device — untouched; no request field is written and no
device or plugin oracle result is consulted. -/
theorem get_best_request_empty_buffer (dev : DeviceView) (next_recovery : Int)
    (min_cycles_with_preall : Request → Int) (clk : Int) (b : ReqBuffer)
    (h : b.buffer = []) :
    FRFCFS.get_best_request dev b = (b, none) ∧
    PRACScheduler.get_best_request dev next_recovery min_cycles_with_preall clk b =
      (b, none) := by
  have h0 : b.buffer.length = 0 := by rw [h]; rfl
  constructor
  · unfold FRFCFS.get_best_request
    rw [if_pos h0]
  · unfold PRACScheduler.get_best_request
    rw [if_pos h0]

/-- Witness for C10 at a concrete empty buffer. -/
theorem get_best_request_empty_buffer_witness :
    FRFCFS.get_best_request
        ⟨fun _ _ => true, fun c _ => c, fun _ _ => false, fun _ _ => false,
         fun _ => false, fun _ => false, fun t => t, 10⟩ ⟨[], 32⟩ =
      (⟨[], 32⟩, none) ∧
    PRACScheduler.get_best_request
        ⟨fun _ _ => true, fun c _ => c, fun _ _ => false, fun _ _ => false,
         fun _ => false, fun _ => false, fun t => t, 10⟩ 100 (fun _ => 0) 0 ⟨[], 32⟩ =
      (⟨[], 32⟩, none) :=
  get_best_request_empty_buffer _ 100 (fun _ => 0) 0 ⟨[], 32⟩ rfl

/-!
## GenericDRAMController state and per-cycle pipeline

`CtrlState` gathers the controller fields used by the modelled operations:
the four request buffers, the pending-completion deque, the write-mode flag
and its rational watermarks, the bank-level index, the clock, and the
statistics counters touched by `send` / `tick` (per-core tallies are the
three `List Nat` fields, indexed by `source_id`).  The float watermarks are
rationals; every concrete input used below has an exactly representable
product, so the comparisons agree with the C++ floats. -/
structure CtrlState where
  pending : List Request := []
  m_active_buffer : ReqBuffer := {}
  m_priority_buffer : ReqBuffer := { max_size := 512 * 3 + 32 }
  m_read_buffer : ReqBuffer := {}
  m_write_buffer : ReqBuffer := {}
  m_is_write_mode : Bool := false
  m_wr_low_watermark : ℚ := 1 / 5
  m_wr_high_watermark : ℚ := 4 / 5
  m_bank_addr_idx : Nat := 0
  m_clk : Int := 0
  s_num_read_reqs : Nat := 0
  s_num_write_reqs : Nat := 0
  s_num_other_reqs : Nat := 0
  s_row_hits : Nat := 0
  s_row_misses : Nat := 0
  s_row_conflicts : Nat := 0
  s_read_row_hits : Nat := 0
  s_read_row_misses : Nat := 0
  s_read_row_conflicts : Nat := 0
  s_write_row_hits : Nat := 0
  s_write_row_misses : Nat := 0
  s_write_row_conflicts : Nat := 0
  s_read_row_hits_per_core : List Nat := []
  s_read_row_misses_per_core : List Nat := []
  s_read_row_conflicts_per_core : List Nat := []
  s_queue_len : Nat := 0
  s_read_queue_len : Nat := 0
  s_write_queue_len : Nat := 0
  s_priority_queue_len : Nat := 0
  s_read_latency : Int := 0
deriving DecidableEq, Repr, Inhabited

/-- The four controller buffers, for naming a scheduling choice. -/
inductive WhichBuffer where
  | active
  | priority
  | read
  | write
deriving DecidableEq, Repr

/-- Read access to the chosen buffer. -/
def bufferOf (st : CtrlState) : WhichBuffer → ReqBuffer
  | .active => st.m_active_buffer
  | .priority => st.m_priority_buffer
  | .read => st.m_read_buffer
  | .write => st.m_write_buffer

/-- Replace the chosen buffer. -/
def setBufferOf (st : CtrlState) : WhichBuffer → ReqBuffer → CtrlState
  | .active, b => { st with m_active_buffer := b }
  | .priority, b => { st with m_priority_buffer := b }
  | .read, b => { st with m_read_buffer := b }
  | .write, b => { st with m_write_buffer := b }

/-- `GenericDRAMController::serve_completed_reads`: if `pending` is
non-empty and its front has reached its departure cycle, account the read
latency (when `depart - arrive > 1`, i.e. the request was not forwarded)
and pop it; the popped request (whose callback, if any, is invoked at this
point) is returned alongside the new state.  Note the single `if` — at most
one request completes per invocation. -/
def serve_completed_reads (st : CtrlState) : CtrlState × List Request :=
  match st.pending with
  | [] => (st, [])
  | req :: rest =>
    if req.depart ≤ st.m_clk then
      let st1 :=
        if req.depart - req.arrive > 1 then
          { st with s_read_latency := st.s_read_latency + (req.depart - req.arrive) }
        else st
      ({ st1 with pending := rest }, [req])
    else (st, [])

/-- `GenericDRAMController::set_write_mode`: hysteresis on the write-buffer
occupancy.  Note the strict `>` against the high watermark in the source. -/
def set_write_mode (st : CtrlState) : CtrlState :=
  if ¬st.m_is_write_mode then
    if ((st.m_write_buffer.size : ℚ) > st.m_wr_high_watermark * st.m_write_buffer.max_size)
        ∨ st.m_read_buffer.size = 0 then
      { st with m_is_write_mode := true }
    else st
  else
    if ((st.m_write_buffer.size : ℚ) < st.m_wr_low_watermark * st.m_write_buffer.max_size)
        ∧ st.m_read_buffer.size ≠ 0 then
      { st with m_is_write_mode := false }
    else st

/-- The read-forwarding test in `send`: some write in the write buffer has
the same address. -/
def hasMatchingWrite (st : CtrlState) (req : Request) : Bool :=
  st.m_write_buffer.buffer.any (fun wreq => wreq.addr = req.addr)

/-- `GenericDRAMController::send`: resolve the final command, bump the
per-type request counter, forward a read matching a buffered write
(depart = clk + 1, straight to `pending`), otherwise stamp the arrival
clock and enqueue into the read or write buffer, resetting `arrive` to `-1`
and reporting failure when the enqueue rejects.  An unknown type on the
enqueue path throws (`Except.error`).  Returns the new controller state and
the request as left by the call (it is passed by reference in C++). -/
def send (dev : DeviceView) (st : CtrlState) (req : Request) :
    Except String (CtrlState × Request × Bool) :=
  let req := { req with final_command := dev.request_translations req.type_id }
  let st :=
    if req.type_id = 0 then { st with s_num_read_reqs := st.s_num_read_reqs + 1 }
    else if req.type_id = 1 then { st with s_num_write_reqs := st.s_num_write_reqs + 1 }
    else { st with s_num_other_reqs := st.s_num_other_reqs + 1 }
  if req.type_id = 0 ∧ hasMatchingWrite st req then
    let req := { req with depart := st.m_clk + 1 }
    .ok ({ st with pending := st.pending ++ [req] }, req, true)
  else
    let req := { req with arrive := st.m_clk }
    if req.type_id = 0 then
      let eb := st.m_read_buffer.enqueue req
      if eb.2 then .ok ({ st with m_read_buffer := eb.1 }, req, true)
      else .ok (st, { req with arrive := -1 }, false)
    else if req.type_id = 1 then
      let eb := st.m_write_buffer.enqueue req
      if eb.2 then .ok ({ st with m_write_buffer := eb.1 }, req, true)
      else .ok (st, { req with arrive := -1 }, false)
    else .error "Invalid request type!"

/-- `GenericDRAMController::priority_send`: resolve the final command and
enqueue directly into the priority buffer. -/
def priority_send (dev : DeviceView) (st : CtrlState) (req : Request) :
    CtrlState × Bool :=
  let req := { req with final_command := dev.request_translations req.type_id }
  let eb := st.m_priority_buffer.enqueue req
  ({ st with m_priority_buffer := eb.1 }, eb.2)

/-- The row-group comparison of the closing-command guard in
`schedule_request`: component-wise equality over levels `0 .. bank_addr_idx`
with `-1` as a wildcard on either side. -/
def rowgroupMatch (bank_addr_idx : Nat) (a r : List Int) : Bool :=
  (List.range (bank_addr_idx + 1)).all (fun i =>
    a.getD i (-1) = r.getD i (-1) || a.getD i (-1) = -1 || r.getD i (-1) = -1)

/-- Step 2.3 of `schedule_request`: a chosen closing command is abandoned if
any request in the active buffer matches its row-group. -/
def closing_guard (dev : DeviceView) (st : CtrlState) (c : WhichBuffer × Nat) :
    CtrlState × Option (WhichBuffer × Nat) :=
  let r := (bufferOf st c.1).buffer.getD c.2 default
  if dev.is_closing r.command ∧
      (st.m_active_buffer.buffer.any (fun a =>
        rowgroupMatch st.m_bank_addr_idx a.addr_vec r.addr_vec)) then
    (st, none)
  else (st, some c)

/-- Step 2.2.1 of `schedule_request`: the priority buffer is non-empty; its
head's command is resolved in place via `get_preq_command`; if ready the
head is taken (subject to the closing guard), otherwise the cycle is
yielded — the read/write buffers are never consulted. -/
def priority_branch (dev : DeviceView) (st : CtrlState) :
    CtrlState × Option (WhichBuffer × Nat) :=
  let head0 := st.m_priority_buffer.buffer.getD 0 default
  let head := { head0 with
    command := dev.get_preq_command head0.final_command head0.addr_vec }
  let st := { st with m_priority_buffer :=
    { st.m_priority_buffer with buffer := st.m_priority_buffer.buffer.set 0 head } }
  if dev.check_ready head.command head.addr_vec then
    closing_guard dev st (.priority, 0)
  else (st, none)

/-- Step 2.2.2 of `schedule_request`: run the write-mode hysteresis, ask
the scheduler on the active-mode (read or write) buffer, and take its
candidate if ready (subject to the closing guard). -/
def rw_branch (dev : DeviceView) (st : CtrlState) :
    CtrlState × Option (WhichBuffer × Nat) :=
  let st := set_write_mode st
  let which : WhichBuffer := if st.m_is_write_mode then .write else .read
  let gb := FRFCFS.get_best_request dev (bufferOf st which)
  let st := setBufferOf st which gb.1
  match gb.2 with
  | some i =>
    let r := gb.1.buffer.getD i default
    if dev.check_ready r.command r.addr_vec then
      closing_guard dev st (which, i)
    else (st, none)
  | none => (st, none)

/-- `GenericDRAMController::schedule_request`: (2.1) ask the scheduler on
the active buffer and take its candidate if ready; (2.2.1) else, if the
priority buffer is non-empty, run `priority_branch`; (2.2.2) else run the
write-mode hysteresis and ask the scheduler on the read or write buffer;
(2.3) a found closing command is checked against the active buffer's
row-groups.  The scheduler's command rewrites (and the priority head's
command rewrite) persist in the returned state. -/
def schedule_request (dev : DeviceView) (st : CtrlState) :
    CtrlState × Option (WhichBuffer × Nat) :=
  let ab := FRFCFS.get_best_request dev st.m_active_buffer
  let st := { st with m_active_buffer := ab.1 }
  let found1 : Option (WhichBuffer × Nat) :=
    match ab.2 with
    | some i =>
      let r := ab.1.buffer.getD i default
      if dev.check_ready r.command r.addr_vec then some (.active, i) else none
    | none => none
  match found1 with
  | some c => closing_guard dev st c
  | none =>
    if st.m_priority_buffer.buffer.length ≠ 0 then
      priority_branch dev st
    else
      rw_branch dev st

/-- Bump a per-core tally at `source_id` (guarded by `source_id != -1` in
the source). -/
def bumpCore (l : List Nat) (source_id : Int) : List Nat :=
  l.set source_id.toNat (l.getD source_id.toNat 0 + 1)

/-- `GenericDRAMController::update_request_stats` on the chosen request at
position `i` of buffer `w`: mark it stat-updated in place and bump the
row-hit / row-conflict / row-miss counters for reads and writes, using the
device's `check_rowbuffer_hit` and `check_node_open` on the request's final
command. -/
def update_request_stats (dev : DeviceView) (st : CtrlState) (w : WhichBuffer)
    (i : Nat) : CtrlState :=
  let r := (bufferOf st w).buffer.getD i default
  let st := setBufferOf st w
    { bufferOf st w with
      buffer := (bufferOf st w).buffer.set i { r with is_stat_updated := true } }
  if r.type_id = 0 then
    if dev.check_rowbuffer_hit r.final_command r.addr_vec then
      let st := { st with s_read_row_hits := st.s_read_row_hits + 1,
                          s_row_hits := st.s_row_hits + 1 }
      if r.source_id ≠ -1 then
        { st with s_read_row_hits_per_core := bumpCore st.s_read_row_hits_per_core r.source_id }
      else st
    else if dev.check_node_open r.final_command r.addr_vec then
      let st := { st with s_read_row_conflicts := st.s_read_row_conflicts + 1,
                          s_row_conflicts := st.s_row_conflicts + 1 }
      if r.source_id ≠ -1 then
        { st with s_read_row_conflicts_per_core :=
            bumpCore st.s_read_row_conflicts_per_core r.source_id }
      else st
    else
      let st := { st with s_read_row_misses := st.s_read_row_misses + 1,
                          s_row_misses := st.s_row_misses + 1 }
      if r.source_id ≠ -1 then
        { st with s_read_row_misses_per_core :=
            bumpCore st.s_read_row_misses_per_core r.source_id }
      else st
  else if r.type_id = 1 then
    if dev.check_rowbuffer_hit r.final_command r.addr_vec then
      { st with s_write_row_hits := st.s_write_row_hits + 1,
                s_row_hits := st.s_row_hits + 1 }
    else if dev.check_node_open r.final_command r.addr_vec then
      { st with s_write_row_conflicts := st.s_write_row_conflicts + 1,
                s_row_conflicts := st.s_row_conflicts + 1 }
    else
      { st with s_write_row_misses := st.s_write_row_misses + 1,
                s_row_misses := st.s_row_misses + 1 }
  else st

/-- Step 4 of `GenericDRAMController::tick` (the issue step): for a found
request, update its statistics if not yet credited, issue its command to
the device (a device-side effect outside `CtrlState`), and then: a final
command moves a read to `pending` with `depart = clk + read_latency`
(writes are just removed); an intermediate opening command moves the
request to the active buffer; any other intermediate command leaves it in
place for the next cycle. -/
def issue_step (dev : DeviceView) (st : CtrlState) :
    Option (WhichBuffer × Nat) → CtrlState
  | none => st
  | some (w, i) =>
    let r0 := (bufferOf st w).buffer.getD i default
    let st := if r0.is_stat_updated = false then update_request_stats dev st w i else st
    let r := (bufferOf st w).buffer.getD i default
    if r.command = r.final_command then
      let st :=
        if r.type_id = 0 then
          { st with pending := st.pending ++ [{ r with depart := st.m_clk + dev.read_latency }] }
        else st
      setBufferOf st w ((bufferOf st w).removeAt i)
    else
      if dev.is_opening r.command then
        let eb := st.m_active_buffer.enqueue r
        let st := { st with m_active_buffer := eb.1 }
        setBufferOf st w ((bufferOf st w).removeAt i)
      else st

/-- Step 0 of `tick`: accumulate the queue-length statistics. -/
def tick_accounting (st : CtrlState) : CtrlState :=
  { st with
    s_queue_len := st.s_queue_len + st.m_read_buffer.size + st.m_write_buffer.size +
      st.m_priority_buffer.size + st.pending.length,
    s_read_queue_len := st.s_read_queue_len + st.m_read_buffer.size + st.pending.length,
    s_write_queue_len := st.s_write_queue_len + st.m_write_buffer.size,
    s_priority_queue_len := st.s_priority_queue_len + st.m_priority_buffer.size }

/-- The refresh manager's `tick()` effect: the manager (an external
component) may `priority_send` a batch of maintenance requests; it is
modelled by the oracle `refreshAt`, mapping the current clock to that
batch.  Row policy and plugins are pure observers (open-row policy is a
no-op) and contribute nothing to the state. -/
def refresh_phase (dev : DeviceView) (refreshAt : Int → List Request)
    (st : CtrlState) : CtrlState :=
  (refreshAt st.m_clk).foldl (fun s r => (priority_send dev s r).1) st

/-- `GenericDRAMController::tick`: advance the clock, account queue
lengths, serve (at most one) completed read, run the refresh manager,
schedule a request and issue it.  Returns the popped completed requests of
this cycle alongside the new state. -/
def tick (dev : DeviceView) (refreshAt : Int → List Request) (st : CtrlState) :
    CtrlState × List Request :=
  let st := { st with m_clk := st.m_clk + 1 }
  let st := tick_accounting st
  let sp := serve_completed_reads st
  let st := refresh_phase dev refreshAt sp.1
  let sr := schedule_request dev st
  (issue_step dev sr.1 sr.2, sp.2)

/-- Iterate `tick`, logging each completed (popped) request with the clock
value at which it was popped. -/
def runTicks (dev : DeviceView) (refreshAt : Int → List Request) :
    Nat → CtrlState → CtrlState × List (Int × Request)
  | 0, st => (st, [])
  | n + 1, st =>
    let tp := tick dev refreshAt st
    let rest := runTicks dev refreshAt n tp.1
    (rest.1, tp.2.map (fun r => (tp.1.m_clk, r)) ++ rest.2)

/-!
## Claims about the controller
-/

/-- Claim C2 (code-bug evidence): `ReqBuffer::enqueue` tests
`buffer.size() <= max_size`, so a buffer already holding `max_size`
requests still accepts one more and grows to `max_size + 1` — contradicting
the declared maximum (the field is documented in the source as the queue's
maximum length, guarding against unbounded growth) and the spec's
"reject-on-full" capacity invariant.  Here a buffer with `max_size = 1`
already holding one request accepts a second. -/
theorem ReqBuffer_enqueue_accepts_at_capacity :
    (ReqBuffer.enqueue ⟨[{ addr := 1 }], 1⟩ { addr := 2 }).2 = true ∧
    (ReqBuffer.enqueue ⟨[{ addr := 1 }], 1⟩ { addr := 2 }).1.buffer.length = 2 ∧
    (ReqBuffer.enqueue ⟨[{ addr := 1 }], 1⟩ { addr := 2 }).1.max_size = 1 :=
  ⟨rfl, rfl, rfl⟩

/-- Counterexample to claim C3: the completion step pops at most one request
per tick (the source uses `if`, not `while`).  With two forwarded reads due
in the same cycle (both with `depart = 6`, reachable by two read-forwards
in cycle 5), after the completion step at clock 6 the queue is non-empty
and its front is still due. -/
theorem serve_completed_reads_leaves_due_front :
    (serve_completed_reads
        { pending := [{ depart := 6 }, { depart := 6 }], m_clk := 6 }).1.pending ≠ [] ∧
    ((serve_completed_reads
        { pending := [{ depart := 6 }, { depart := 6 }], m_clk := 6 }).1.pending.headD
          default).depart ≤
      (serve_completed_reads
        { pending := [{ depart := 6 }, { depart := 6 }], m_clk := 6 }).1.m_clk := by
  constructor
  · decide
  · decide

/-- Claim C3 (amended): the completion step of a tick pops at most one
request — exactly the front of `pending`, iff its departure cycle has been
reached, crediting the read-latency statistic for non-forwarded requests
and invoking the popped request's callback; a later due request waits for
the next cycle. -/
theorem serve_completed_reads_pops_at_most_front (st : CtrlState) (r : Request)
    (rest : List Request) (h : st.pending = r :: rest) :
    (r.depart ≤ st.m_clk →
      serve_completed_reads st =
        ({ (if r.depart - r.arrive > 1 then
              { st with s_read_latency := st.s_read_latency + (r.depart - r.arrive) }
            else st) with pending := rest }, [r])) ∧
    (st.m_clk < r.depart → serve_completed_reads st = (st, [])) := by
  unfold serve_completed_reads
  rw [h]
  dsimp only
  constructor
  · intro hd
    rw [if_pos hd]
  · intro hd
    rw [if_neg (not_le.mpr hd)]

/-- Witness for the amended C3 at a concrete state: the front (and only the
front) of a two-element queue is popped. -/
theorem serve_completed_reads_pops_at_most_front_witness :
    (serve_completed_reads
      { pending := [{ depart := 6 }, { depart := 7 }], m_clk := 6 }).2 = [{ depart := 6 }] := by
  have h := serve_completed_reads_pops_at_most_front
    { pending := [{ depart := 6 }, { depart := 7 }], m_clk := 6 }
    { depart := 6 } [{ depart := 7 }] rfl
  have h1 := h.1 (by decide)
  rw [h1]

/-- Counterexample to claim C5: the source compares the write-buffer size
with the high watermark using strict `>`, so when the size exactly equals
`high_watermark × capacity` (here 16 = 1/2 × 32, exactly representable in
the C++ float as well) and reads are present, the controller does not
switch to write mode, though the claim requires it to. -/
theorem set_write_mode_ignores_exact_watermark :
    (set_write_mode
        { m_write_buffer := ⟨List.replicate 16 default, 32⟩,
          m_read_buffer := ⟨[default], 32⟩,
          m_wr_high_watermark := 1 / 2, m_wr_low_watermark := 1 / 5,
          m_is_write_mode := false }).m_is_write_mode = false ∧
    ((⟨List.replicate 16 default, 32⟩ : ReqBuffer).size : ℚ) =
      (1 / 2 : ℚ) * (⟨List.replicate 16 default, 32⟩ : ReqBuffer).max_size := by
  constructor
  · unfold set_write_mode
    rw [if_pos (by simp)]
    rw [if_neg (by norm_num [ReqBuffer.size])]
  · norm_num [ReqBuffer.size]

/-- Claim C5 (amended): `set_write_mode` is the two-threshold hysteresis
with a strict high-watermark comparison: when not in write mode it switches
iff `write_buffer.size > high_watermark × capacity` (strictly) or the read
buffer is empty; when in write mode it switches back iff
`write_buffer.size < low_watermark × capacity` and the read buffer is
non-empty; and only the mode flag is ever touched, so at most one
transition occurs per call. -/
theorem set_write_mode_hysteresis (st : CtrlState) :
    (st.m_is_write_mode = false →
      ((set_write_mode st).m_is_write_mode = true ↔
        ((st.m_write_buffer.size : ℚ) >
            st.m_wr_high_watermark * st.m_write_buffer.max_size ∨
          st.m_read_buffer.size = 0))) ∧
    (st.m_is_write_mode = true →
      ((set_write_mode st).m_is_write_mode = false ↔
        ((st.m_write_buffer.size : ℚ) <
            st.m_wr_low_watermark * st.m_write_buffer.max_size ∧
          st.m_read_buffer.size ≠ 0))) ∧
    set_write_mode st = { st with m_is_write_mode := (set_write_mode st).m_is_write_mode } := by
  refine ⟨?_, ?_, ?_⟩
  · intro h
    unfold set_write_mode
    rw [if_pos (by simp [h])]
    by_cases hc : ((st.m_write_buffer.size : ℚ) >
        st.m_wr_high_watermark * st.m_write_buffer.max_size ∨ st.m_read_buffer.size = 0)
    · rw [if_pos hc]
      simp [hc]
    · rw [if_neg hc]
      simp [h, hc]
  · intro h
    unfold set_write_mode
    rw [if_neg (by simp [h])]
    by_cases hc : ((st.m_write_buffer.size : ℚ) <
        st.m_wr_low_watermark * st.m_write_buffer.max_size ∧ st.m_read_buffer.size ≠ 0)
    · rw [if_pos hc]
      simp [hc]
    · rw [if_neg hc]
      simp [h, hc]
  · unfold set_write_mode
    split_ifs <;> rfl

/-- Witness for the amended C5: with the write buffer strictly above the
high watermark the controller enters write mode. -/
theorem set_write_mode_hysteresis_witness :
    (set_write_mode
        { m_write_buffer := ⟨List.replicate 17 default, 32⟩,
          m_read_buffer := ⟨[default], 32⟩,
          m_wr_high_watermark := 1 / 2, m_wr_low_watermark := 1 / 5,
          m_is_write_mode := false }).m_is_write_mode = true := by
  have h := set_write_mode_hysteresis
    { m_write_buffer := ⟨List.replicate 17 default, 32⟩,
      m_read_buffer := ⟨[default], 32⟩,
      m_wr_high_watermark := 1 / 2, m_wr_low_watermark := 1 / 5,
      m_is_write_mode := false }
  exact (h.1 rfl).mpr (Or.inl (by norm_num [ReqBuffer.size]))

/-- Counterexample to claim C4: `send` is not mutation-free on rejection.
With a read whose target buffer rejects (the read buffer is over capacity)
and no matching write to forward to, `send` returns `false`, yet the
per-type statistics counter has been incremented (0 to 1) and the request's
`final_command` has been overwritten (−1 to the translated command 0). -/
theorem send_full_buffer_still_mutates :
    ((send ⟨fun _ _ => true, fun c _ => c, fun _ _ => false, fun _ _ => false,
          fun _ => false, fun _ => false, fun t => t, 10⟩
        { m_read_buffer := ⟨[default], 0⟩ } { addr := 9, type_id := 0 }).toOption.map
      (fun t => (t.2.2, t.1.s_num_read_reqs, t.1.m_read_buffer.buffer.length,
                 t.1.pending.length, t.2.1.final_command, t.2.1.arrive))) =
      some (false, 1, 1, 0, 0, -1) ∧
    ({ m_read_buffer := ⟨[default], 0⟩ } : CtrlState).s_num_read_reqs = 0 ∧
    ({ addr := 9, type_id := 0 } : Request).final_command = -1 := by
  refine ⟨?_, rfl, rfl⟩
  decide

/-- Claim C4 (amended): when the target buffer rejects the request, `send`
returns `false`, the four buffers and `pending` are left unchanged and the
request's `arrive` field is reset to `-1`; however the call is not
mutation-free: the per-type request counter has already been incremented
and the request's `final_command` has been overwritten with the translated
final command. -/
theorem send_reject_behavior (dev : DeviceView) (st : CtrlState) (req : Request) :
    (req.type_id = 0 → hasMatchingWrite st req = false →
      ¬(st.m_read_buffer.buffer.length ≤ st.m_read_buffer.max_size) →
      send dev st req =
        .ok ({ st with s_num_read_reqs := st.s_num_read_reqs + 1 },
             { req with final_command := dev.request_translations req.type_id,
                        arrive := -1 },
             false)) ∧
    (req.type_id = 1 →
      ¬(st.m_write_buffer.buffer.length ≤ st.m_write_buffer.max_size) →
      send dev st req =
        .ok ({ st with s_num_write_reqs := st.s_num_write_reqs + 1 },
             { req with final_command := dev.request_translations req.type_id,
                        arrive := -1 },
             false)) := by
  constructor
  · intro h0 hnofwd hfull
    have hnofwd' : st.m_write_buffer.buffer.any (fun wreq => wreq.addr = req.addr) = false := by
      simpa [hasMatchingWrite] using hnofwd
    simp [send, ReqBuffer.enqueue, hasMatchingWrite, h0, hnofwd', hfull]
  · intro h1 hfull
    simp [send, ReqBuffer.enqueue, hasMatchingWrite, h1, hfull]

/-- Witness for the amended C4 at the concrete rejection scenario. -/
theorem send_reject_behavior_witness :
    send ⟨fun _ _ => true, fun c _ => c, fun _ _ => false, fun _ _ => false,
        fun _ => false, fun _ => false, fun t => t, 10⟩
      { m_read_buffer := ⟨[default], 0⟩ } { addr := 9, type_id := 0 } =
      .ok ({ ({ m_read_buffer := ⟨[default], 0⟩ } : CtrlState) with s_num_read_reqs := 1 },
           { ({ addr := 9, type_id := 0 } : Request) with final_command := 0, arrive := -1 },
           false) := by
  have h := send_reject_behavior
    ⟨fun _ _ => true, fun c _ => c, fun _ _ => false, fun _ _ => false,
     fun _ => false, fun _ => false, fun t => t, 10⟩
    { m_read_buffer := ⟨[default], 0⟩ } { addr := 9, type_id := 0 }
  exact h.1 rfl rfl (by decide)

/-! Helper lemmas about `FRFCFS.get_best_request` and list heads, used by the
scheduling theorems. -/

theorem frfcfs_any_rowgroup (dev : DeviceView) (b : ReqBuffer) (k : Nat) (v : List Int) :
    (FRFCFS.get_best_request dev b).1.buffer.any
        (fun a => rowgroupMatch k a.addr_vec v) =
      b.buffer.any (fun a => rowgroupMatch k a.addr_vec v) := by
  unfold FRFCFS.get_best_request
  split
  · rfl
  · dsimp only
    rw [List.any_map]
    rfl

theorem getD_set_zero (l : List Request) (x d : Request) (h : l ≠ []) :
    (l.set 0 x).getD 0 d = x := by
  cases l with
  | nil => exact absurd rfl h
  | cons a as => rfl

theorem priority_branch_spec (dev : DeviceView) (s : CtrlState)
    (hpne : s.m_priority_buffer.buffer ≠ []) :
    ((priority_branch dev s).2 = none ∨
      (priority_branch dev s).2 = some (WhichBuffer.priority, 0)) ∧
    ((priority_branch dev s).2 = some (WhichBuffer.priority, 0) ↔
      (dev.check_ready
          (dev.get_preq_command (s.m_priority_buffer.buffer.getD 0 default).final_command
            (s.m_priority_buffer.buffer.getD 0 default).addr_vec)
          (s.m_priority_buffer.buffer.getD 0 default).addr_vec = true ∧
        ¬(dev.is_closing
            (dev.get_preq_command
              (s.m_priority_buffer.buffer.getD 0 default).final_command
              (s.m_priority_buffer.buffer.getD 0 default).addr_vec) = true ∧
          s.m_active_buffer.buffer.any (fun a =>
            rowgroupMatch s.m_bank_addr_idx a.addr_vec
              (s.m_priority_buffer.buffer.getD 0 default).addr_vec) = true))) := by
  unfold priority_branch closing_guard bufferOf
  dsimp only
  rw [getD_set_zero _ _ _ hpne]
  split_ifs with hr hg
  · exact ⟨Or.inl rfl, iff_of_false (by simp) (fun hc => hc.2 hg)⟩
  · exact ⟨Or.inr rfl, iff_of_true rfl ⟨hr, hg⟩⟩
  · exact ⟨Or.inl rfl, iff_of_false (by simp) (fun hc => hr hc.1)⟩

/-- The scenario refuting claim C6: the active buffer's only candidate is
not ready, the priority head resolves to a ready command 5, but command 5
is closing and the active request shares its row-group, so the closing
guard cancels the cycle. -/
def devC6 : DeviceView :=
  ⟨fun c _ => c == 5, fun c _ => c, fun _ _ => false, fun _ _ => false,
   fun _ => false, fun c => c == 5, fun t => t, 10⟩

/-- Controller state for the C6 scenario. -/
def stC6 : CtrlState :=
  { m_active_buffer := ⟨[{ addr_vec := [0, 0], final_command := 3 }], 32⟩,
    m_priority_buffer := ⟨[{ addr_vec := [0, 0], final_command := 5 }], 512 * 3 + 32⟩,
    m_bank_addr_idx := 1 }

/-- Counterexample to claim C6: in a cycle where the active buffer yields no
ready candidate and the priority buffer is non-empty, a ready priority head
can still be abandoned by the closing-command guard (its resolved command
is closing and an active-buffer request shares the row-group), so
`schedule_request` selects nothing even though the head is ready —
contradicting "it selects that head when the resolved command is ready". -/
theorem schedule_request_cancels_ready_priority_head :
    ((FRFCFS.get_best_request devC6 stC6.m_active_buffer).2 = some 0 ∧
      devC6.check_ready
        (((FRFCFS.get_best_request devC6 stC6.m_active_buffer).1.buffer.getD 0
            default).command)
        (((FRFCFS.get_best_request devC6 stC6.m_active_buffer).1.buffer.getD 0
            default).addr_vec) = false) ∧
    stC6.m_priority_buffer.buffer ≠ [] ∧
    devC6.check_ready
      (devC6.get_preq_command
        (stC6.m_priority_buffer.buffer.getD 0 default).final_command
        (stC6.m_priority_buffer.buffer.getD 0 default).addr_vec)
      (stC6.m_priority_buffer.buffer.getD 0 default).addr_vec = true ∧
    (schedule_request devC6 stC6).2 = none := by
  decide

/-- Claim C6 (amended): in a cycle where the active buffer yields no ready
candidate and the priority buffer is non-empty, `schedule_request`
considers only the priority head: it never selects from the read or write
buffers, and it selects the head precisely when its resolved command is
ready and the closing-command guard does not cancel it (the command is
closing and some active-buffer request matches its row-group); in every
other case it selects nothing this cycle. -/
theorem schedule_request_priority_exclusive (dev : DeviceView) (st : CtrlState)
    (hpne : st.m_priority_buffer.buffer ≠ [])
    (hnoact : match (FRFCFS.get_best_request dev st.m_active_buffer).2 with
      | some i =>
        dev.check_ready
          (((FRFCFS.get_best_request dev st.m_active_buffer).1.buffer.getD i
              default).command)
          (((FRFCFS.get_best_request dev st.m_active_buffer).1.buffer.getD i
              default).addr_vec) = false
      | none => True) :
    ((schedule_request dev st).2 = none ∨
      (schedule_request dev st).2 = some (WhichBuffer.priority, 0)) ∧
    ((schedule_request dev st).2 = some (WhichBuffer.priority, 0) ↔
      (dev.check_ready
          (dev.get_preq_command (st.m_priority_buffer.buffer.getD 0 default).final_command
            (st.m_priority_buffer.buffer.getD 0 default).addr_vec)
          (st.m_priority_buffer.buffer.getD 0 default).addr_vec = true ∧
        ¬(dev.is_closing
            (dev.get_preq_command
              (st.m_priority_buffer.buffer.getD 0 default).final_command
              (st.m_priority_buffer.buffer.getD 0 default).addr_vec) = true ∧
          st.m_active_buffer.buffer.any (fun a =>
            rowgroupMatch st.m_bank_addr_idx a.addr_vec
              (st.m_priority_buffer.buffer.getD 0 default).addr_vec) = true))) := by
  have hlen : st.m_priority_buffer.buffer.length ≠ 0 := by
    intro hc
    exact hpne (List.length_eq_zero.mp hc)
  have hsr : schedule_request dev st =
      priority_branch dev
        { st with m_active_buffer := (FRFCFS.get_best_request dev st.m_active_buffer).1 } := by
    unfold schedule_request
    dsimp only
    rcases hab : (FRFCFS.get_best_request dev st.m_active_buffer).2 with _ | i
    · dsimp only
      rw [if_pos hlen]
    · rw [hab] at hnoact
      dsimp only at hnoact ⊢
      rw [hnoact]
      simp only [Bool.false_eq_true, if_false]
      rw [if_pos hlen]
  have hcore := priority_branch_spec dev
    { st with m_active_buffer := (FRFCFS.get_best_request dev st.m_active_buffer).1 } hpne
  dsimp only at hcore
  rw [frfcfs_any_rowgroup] at hcore
  rw [hsr]
  exact hcore

/-- Witness for the amended C6 at the concrete scenario: the result is
`none` or the priority head — never a read/write-buffer request. -/
theorem schedule_request_priority_exclusive_witness :
    (schedule_request devC6 stC6).2 = none ∨
      (schedule_request devC6 stC6).2 = some (WhichBuffer.priority, 0) := by
  have hno : (match (FRFCFS.get_best_request devC6 stC6.m_active_buffer).2 with
      | some i =>
        devC6.check_ready
          (((FRFCFS.get_best_request devC6 stC6.m_active_buffer).1.buffer.getD i
              default).command)
          (((FRFCFS.get_best_request devC6 stC6.m_active_buffer).1.buffer.getD i
              default).addr_vec) = false
      | none => True) := by
    rw [show (FRFCFS.get_best_request devC6 stC6.m_active_buffer).2 = some 0 from by decide]
    show devC6.check_ready
      (((FRFCFS.get_best_request devC6 stC6.m_active_buffer).1.buffer.getD 0
          default).command)
      (((FRFCFS.get_best_request devC6 stC6.m_active_buffer).1.buffer.getD 0
          default).addr_vec) = false
    decide
  exact (schedule_request_priority_exclusive devC6 stC6 (by decide) hno).1

/-! Clock-preservation lemmas for the tick phases: only the `m_clk := m_clk + 1`
at the head of `tick` changes the clock. -/

theorem setBufferOf_clk (st : CtrlState) (w : WhichBuffer) (b : ReqBuffer) :
    (setBufferOf st w b).m_clk = st.m_clk := by
  cases w <;> rfl

theorem serve_completed_reads_clk (st : CtrlState) :
    (serve_completed_reads st).1.m_clk = st.m_clk := by
  unfold serve_completed_reads
  rcases st.pending with _ | ⟨r, rest⟩
  · rfl
  · dsimp only
    split_ifs <;> rfl

theorem serve_completed_reads_pops (st : CtrlState) :
    ∀ r ∈ (serve_completed_reads st).2, r.depart ≤ st.m_clk := by
  unfold serve_completed_reads
  rcases st.pending with _ | ⟨q, rest⟩
  · intro r hr
    cases hr
  · dsimp only
    by_cases hd : q.depart ≤ st.m_clk
    · rw [if_pos hd]
      intro r hr
      rw [List.mem_singleton.mp hr]
      exact hd
    · rw [if_neg hd]
      intro r hr
      cases hr

theorem serve_completed_reads_pops_len (st : CtrlState) :
    (serve_completed_reads st).2.length ≤ 1 := by
  unfold serve_completed_reads
  rcases st.pending with _ | ⟨q, rest⟩
  · simp
  · dsimp only
    split_ifs <;> simp

theorem priority_send_clk (dev : DeviceView) (st : CtrlState) (r : Request) :
    (priority_send dev st r).1.m_clk = st.m_clk := rfl

theorem foldl_priority_send_clk (dev : DeviceView) :
    ∀ (l : List Request) (st : CtrlState),
      (l.foldl (fun s r => (priority_send dev s r).1) st).m_clk = st.m_clk := by
  intro l
  induction l with
  | nil => intro st; rfl
  | cons r rs ih =>
    intro st
    rw [List.foldl_cons]
    exact (ih _).trans rfl

theorem refresh_phase_clk (dev : DeviceView) (refreshAt : Int → List Request)
    (st : CtrlState) : (refresh_phase dev refreshAt st).m_clk = st.m_clk := by
  unfold refresh_phase
  exact foldl_priority_send_clk dev _ st

theorem set_write_mode_clk (st : CtrlState) :
    (set_write_mode st).m_clk = st.m_clk := by
  unfold set_write_mode
  split_ifs <;> rfl

theorem closing_guard_state (dev : DeviceView) (st : CtrlState) (c : WhichBuffer × Nat) :
    (closing_guard dev st c).1 = st := by
  unfold closing_guard
  dsimp only
  split_ifs <;> rfl

theorem priority_branch_clk (dev : DeviceView) (st : CtrlState) :
    (priority_branch dev st).1.m_clk = st.m_clk := by
  unfold priority_branch
  dsimp only
  split_ifs
  · rw [closing_guard_state]
  · rfl

theorem update_request_stats_clk (dev : DeviceView) (st : CtrlState)
    (w : WhichBuffer) (i : Nat) :
    (update_request_stats dev st w i).m_clk = st.m_clk := by
  cases w <;>
    (unfold update_request_stats bufferOf setBufferOf
     dsimp only
     split_ifs <;> rfl)

theorem issue_step_clk (dev : DeviceView) (st : CtrlState)
    (o : Option (WhichBuffer × Nat)) : (issue_step dev st o).m_clk = st.m_clk := by
  cases o with
  | none => rfl
  | some c =>
    obtain ⟨w, i⟩ := c
    unfold issue_step
    dsimp only
    split_ifs <;>
      simp only [setBufferOf_clk, update_request_stats_clk]

theorem rw_branch_clk (dev : DeviceView) (st : CtrlState) :
    (rw_branch dev st).1.m_clk = st.m_clk := by
  suffices h : (rw_branch dev st).1.m_clk = (set_write_mode st).m_clk by
    rw [h, set_write_mode_clk]
  unfold rw_branch
  dsimp only
  generalize set_write_mode st = s
  by_cases hm : s.m_is_write_mode = true
  · rw [if_pos hm]
    rcases (FRFCFS.get_best_request dev (bufferOf s WhichBuffer.write)).2 with _ | i
    · dsimp only
      rw [setBufferOf_clk]
    · dsimp only
      split_ifs
      · rw [closing_guard_state, setBufferOf_clk]
      · rw [setBufferOf_clk]
  · rw [if_neg hm]
    rcases (FRFCFS.get_best_request dev (bufferOf s WhichBuffer.read)).2 with _ | i
    · dsimp only
      rw [setBufferOf_clk]
    · dsimp only
      split_ifs
      · rw [closing_guard_state, setBufferOf_clk]
      · rw [setBufferOf_clk]

theorem schedule_request_clk (dev : DeviceView) (st : CtrlState) :
    (schedule_request dev st).1.m_clk = st.m_clk := by
  unfold schedule_request
  dsimp only
  rcases (FRFCFS.get_best_request dev st.m_active_buffer).2 with _ | i
  · dsimp only
    by_cases hp : st.m_priority_buffer.buffer.length ≠ 0
    · rw [if_pos hp, priority_branch_clk]
    · rw [if_neg hp, rw_branch_clk]
  · dsimp only
    by_cases hr : dev.check_ready
        ((FRFCFS.get_best_request dev st.m_active_buffer).1.buffer.getD i default).command
        ((FRFCFS.get_best_request dev st.m_active_buffer).1.buffer.getD i default).addr_vec
        = true
    · rw [if_pos hr]
      dsimp only
      rw [closing_guard_state]
    · rw [if_neg hr]
      dsimp only
      by_cases hp : st.m_priority_buffer.buffer.length ≠ 0
      · rw [if_pos hp, priority_branch_clk]
      · rw [if_neg hp, rw_branch_clk]

theorem tick_accounting_clk (st : CtrlState) :
    (tick_accounting st).m_clk = st.m_clk := rfl

theorem tick_clk (dev : DeviceView) (refreshAt : Int → List Request) (st : CtrlState) :
    (tick dev refreshAt st).1.m_clk = st.m_clk + 1 := by
  unfold tick
  dsimp only
  rw [issue_step_clk, schedule_request_clk, refresh_phase_clk, serve_completed_reads_clk,
    tick_accounting_clk]

theorem tick_pops (dev : DeviceView) (refreshAt : Int → List Request) (st : CtrlState) :
    (∀ r ∈ (tick dev refreshAt st).2, r.depart ≤ st.m_clk + 1) ∧
    (tick dev refreshAt st).2.length ≤ 1 := by
  unfold tick
  dsimp only
  constructor
  · intro r hr
    have h := serve_completed_reads_pops
      (tick_accounting { st with m_clk := st.m_clk + 1 }) r hr
    exact h
  · exact serve_completed_reads_pops_len (tick_accounting { st with m_clk := st.m_clk + 1 })

theorem runTicks_log_bounds (dev : DeviceView) (refreshAt : Int → List Request) :
    ∀ (n : Nat) (st : CtrlState), ∀ p ∈ (runTicks dev refreshAt n st).2,
      st.m_clk < p.1 ∧ p.2.depart ≤ p.1 := by
  intro n
  induction n with
  | zero =>
    intro st p hp
    cases hp
  | succ m ih =>
    intro st p hp
    unfold runTicks at hp
    dsimp only at hp
    rw [List.mem_append] at hp
    rcases hp with hp | hp
    · rcases List.mem_map.mp hp with ⟨r, hr, hpr⟩
      subst hpr
      rw [tick_clk]
      refine ⟨by omega, ?_⟩
      exact (tick_pops dev refreshAt st).1 r hr
    · have hb := ih (tick dev refreshAt st).1 p hp
      rw [tick_clk] at hb
      exact ⟨by omega, hb.2⟩

theorem runTicks_chain (dev : DeviceView) (refreshAt : Int → List Request) :
    ∀ (n : Nat) (st : CtrlState),
      List.Chain' (fun p q => p.1 < q.1) (runTicks dev refreshAt n st).2 := by
  intro n
  induction n with
  | zero =>
    intro st
    unfold runTicks
    exact List.chain'_nil
  | succ m ih =>
    intro st
    unfold runTicks
    show List.Chain' (fun p q => p.1 < q.1)
      ((tick dev refreshAt st).2.map (fun r => ((tick dev refreshAt st).1.m_clk, r)) ++
        (runTicks dev refreshAt m (tick dev refreshAt st).1).2)
    rcases hlen : (tick dev refreshAt st).2 with _ | ⟨r, rs⟩
    · simpa using ih (tick dev refreshAt st).1
    · have hlen1 := (tick_pops dev refreshAt st).2
      rw [hlen] at hlen1
      have hrs : rs = [] := by
        cases rs with
        | nil => rfl
        | cons a as => simp at hlen1
      subst hrs
      apply List.Chain'.cons'
      · exact ih _
      · intro q hq
        have hmem := List.mem_of_mem_head? hq
        exact (runTicks_log_bounds dev refreshAt m (tick dev refreshAt st).1 q hmem).1

/-- Claim C7 (amended): over any run of the controller, completed requests
are popped from the front of `pending` at strictly increasing clock values,
and each pop occurs no earlier than the popped request's `depart`; the
sequence of popped `depart` values themselves need not be non-decreasing,
because a write-forwarded read (depart = clk + 1) can be queued behind an
earlier request with a larger depart (see the counterexample). -/
theorem runTicks_pop_order (dev : DeviceView) (refreshAt : Int → List Request)
    (n : Nat) (st : CtrlState) :
    List.Chain' (fun p q => p.1 < q.1) (runTicks dev refreshAt n st).2 ∧
    ∀ p ∈ (runTicks dev refreshAt n st).2, p.2.depart ≤ p.1 ∧ st.m_clk < p.1 :=
  ⟨runTicks_chain dev refreshAt n st, fun p hp =>
    ⟨(runTicks_log_bounds dev refreshAt n st p hp).2,
     (runTicks_log_bounds dev refreshAt n st p hp).1⟩⟩

/-- Device view for the C7 scenario: every command except 9 is always
ready, prerequisites resolve to the requested command itself, nothing opens
or closes rows, the read latency is 10 cycles. -/
def devC7 : DeviceView :=
  ⟨fun c _ => c != 9, fun c _ => c, fun _ _ => false, fun _ _ => false,
   fun _ => false, fun _ => false, fun t => t, 10⟩

/-- Initial controller state for the C7 scenario at clock 4: one read in
the active buffer about to issue its final command, a write (address 100)
sitting in the write buffer, and a never-ready maintenance request in the
priority buffer. -/
def stC7 : CtrlState :=
  { m_clk := 4,
    m_active_buffer :=
      ⟨[{ addr := 100, addr_vec := [0, 0], type_id := 0, command := 0,
          final_command := 0, arrive := 0 }], 32⟩,
    m_write_buffer :=
      ⟨[{ addr := 100, addr_vec := [0, 1], type_id := 1, final_command := 1,
          arrive := 0 }], 32⟩,
    m_priority_buffer := ⟨[{ addr_vec := [0], final_command := 9 }], 512 * 3 + 32⟩ }

/-- The pop log of the C7 run: one tick (issuing the active read, whose
departure is set to clock 5 + 10 = 15), then a `send` of a read to address
100 that is forwarded against the buffered write (departure 5 + 1 = 6),
then eleven more ticks during which both pending requests complete.  The
log records each popped request's departure cycle in pop order. -/
def runC7_departs : List Int :=
  let t1 := tick devC7 (fun _ => []) stC7
  match send devC7 t1.1 { addr := 100, type_id := 0 } with
  | .ok res =>
    let t2 := runTicks devC7 (fun _ => []) 11 res.1
    ((t1.2.map (fun r => (t1.1.m_clk, r))) ++ t2.2).map (fun p => p.2.depart)
  | .error _ => []

/-- Counterexample to claim C7: the run above pops departure 15 first and
departure 6 second — the sequence of popped `depart` values is strictly
decreasing, refuting "pending is popped in non-decreasing depart order". -/
theorem runTicks_pop_departs_can_decrease :
    runC7_departs = [15, 6] ∧
    ¬ List.Chain' (fun a b : Int => a ≤ b) runC7_departs := by
  constructor
  · decide
  · rw [show runC7_departs = [15, 6] from by decide]
    norm_num [List.chain'_cons]

/-- Witness for the amended C7: a one-tick run popping a single due request
at clock 1, to which the theorem's bounds apply. -/
theorem runTicks_pop_order_witness :
    ({ depart := 0 } : Request).depart ≤ 1 ∧ (0 : Int) < 1 := by
  have h := runTicks_pop_order devC7 (fun _ => []) 1
    { pending := [{ depart := 0 }],
      m_priority_buffer := ⟨[{ addr_vec := [0], final_command := 9 }], 512 * 3 + 32⟩ }
  have hm : ((1 : Int), ({ depart := 0 } : Request)) ∈
      (runTicks devC7 (fun _ => []) 1
        { pending := [{ depart := 0 }],
          m_priority_buffer :=
            ⟨[{ addr_vec := [0], final_command := 9 }], 512 * 3 + 32⟩ }).2 := by
    decide
  exact h.2 ((1 : Int), ({ depart := 0 } : Request)) hm

end Ram
